import Mathlib

/-!
A verification development for the movie-api data-access layer
(`src/services/movies.service.ts` and collaborators).

The service issues read queries against two stores (a movie catalog and a
rating-sample store), shapes the raw rows into DTOs (parsing JSON-text
columns, formatting budgets, aggregating ratings) and surfaces store or
parse failures to the caller.  The embedding below models the stores as
lists of rows plus an injectable query-failure, models JavaScript
`JSON.parse` with a fuel-indexed recursive-descent parser (including the
coercion of `null` to the string `"null"`), models SQLite `LIKE` with its
default ASCII case folding, and turns each exported service function into
a Lean function returning its result together with the trace of store
queries it issued.
-/

namespace MovieApi

/-! ### JSON values and a model of JavaScript JSON.parse -/

/-- A JSON value, as produced by `JSON.parse`. -/
inductive Json where
  | null : Json
  | bool (b : Bool) : Json
  | num (q : ℚ) : Json
  | str (s : String) : Json
  | arr (items : List Json) : Json
  | obj (members : List (String × Json)) : Json

/-- The opening-brace character. -/
def lbrace : Char := Char.ofNat 123

/-- The closing-brace character. -/
def rbrace : Char := Char.ofNat 125

/-- JSON insignificant whitespace: space, tab, line feed, carriage return. -/
def isWsChar (c : Char) : Bool :=
  c = ' ' || c = Char.ofNat 9 || c = Char.ofNat 10 || c = Char.ofNat 13

/-- Drop leading JSON whitespace. -/
def skipWs : List Char → List Char
  | [] => []
  | c :: cs => if isWsChar c then skipWs cs else c :: cs

/-- Decimal digit test. -/
def isDigitChar (c : Char) : Bool := '0' ≤ c && c ≤ '9'

/-- Split a character list into its leading run of digits and the rest. -/
def takeDigits : List Char → List Char × List Char
  | [] => ([], [])
  | c :: cs =>
    if isDigitChar c then
      let p := takeDigits cs
      (c :: p.1, p.2)
    else ([], c :: cs)

/-- Numeric value of a digit run. -/
def digitsVal (ds : List Char) : Nat := ds.foldl (fun a c => a * 10 + (c.toNat - 48)) 0

/-- Value of a hexadecimal digit, if any. -/
def hexDigit (c : Char) : Option Nat :=
  if isDigitChar c then some (c.toNat - 48)
  else if 'a' ≤ c ∧ c ≤ 'f' then some (c.toNat - 87)
  else if 'A' ≤ c ∧ c ≤ 'F' then some (c.toNat - 55)
  else none

/-- Single-character JSON string escapes. -/
def escChar (c : Char) : Option Char :=
  if c = '"' ∨ c = '\\' ∨ c = '/' then some c
  else if c = 'b' then some (Char.ofNat 8)
  else if c = 'f' then some (Char.ofNat 12)
  else if c = 'n' then some (Char.ofNat 10)
  else if c = 'r' then some (Char.ofNat 13)
  else if c = 't' then some (Char.ofNat 9)
  else none

/-- Parse the body of a JSON string literal (the opening quote already
consumed), accumulating characters in reverse. -/
def parseStrAux : List Char → List Char → Option (String × List Char)
  | _, [] => none
  | acc, c :: rest =>
    if c = '"' then some (String.mk acc.reverse, rest)
    else if c = '\\' then
      match rest with
      | [] => none
      | 'u' :: h1 :: h2 :: h3 :: h4 :: r =>
        match hexDigit h1, hexDigit h2, hexDigit h3, hexDigit h4 with
        | some a, some b, some c2, some d =>
          parseStrAux (Char.ofNat (((a * 16 + b) * 16 + c2) * 16 + d) :: acc) r
        | _, _, _, _ => none
      | e :: r =>
        match escChar e with
        | some ec => parseStrAux (ec :: acc) r
        | none => none
    else parseStrAux (c :: acc) rest

/-- Parse the exponent part of a JSON number, if present. -/
def parseExpPart (v : ℚ) (cs : List Char) : Option (ℚ × List Char) :=
  match cs with
  | c :: r =>
    if c = 'e' ∨ c = 'E' then
      let sr : Int × List Char :=
        match r with
        | '+' :: r2 => (1, r2)
        | '-' :: r2 => (-1, r2)
        | r2 => (1, r2)
      match takeDigits sr.2 with
      | ([], _) => none
      | (ds, rest) => some (v * (10 : ℚ) ^ (sr.1 * (digitsVal ds : Int)), rest)
    else some (v, cs)
  | [] => some (v, cs)

/-- Parse an unsigned JSON number (integer part, optional fraction,
optional exponent). -/
def parseNumCore (cs : List Char) : Option (ℚ × List Char) :=
  match takeDigits cs with
  | ([], _) => none
  | (ds, rest) =>
    if 1 < ds.length ∧ ds.head? = some '0' then none
    else
      match rest with
      | '.' :: r2 =>
        match takeDigits r2 with
        | ([], _) => none
        | (fs, rest2) =>
          parseExpPart ((digitsVal ds : ℚ) + (digitsVal fs : ℚ) / ((10 : ℚ) ^ fs.length)) rest2
      | _ => parseExpPart (digitsVal ds : ℚ) rest

/-- Parse a JSON number, with optional leading minus sign. -/
def parseNum (cs : List Char) : Option (Json × List Char) :=
  match cs with
  | '-' :: r => (parseNumCore r).map (fun p => (Json.num (-p.1), p.2))
  | _ => (parseNumCore cs).map (fun p => (Json.num p.1, p.2))

mutual

/-- Parse a JSON value, fuel-indexed. -/
def parseVal : Nat → List Char → Option (Json × List Char)
  | 0, _ => none
  | Nat.succ fuel, cs =>
    match skipWs cs with
    | [] => none
    | c :: rest =>
      if c = '"' then (parseStrAux [] rest).map (fun p => (Json.str p.1, p.2))
      else if c = '[' then
        match skipWs rest with
        | ']' :: r => some (Json.arr [], r)
        | r => (parseItems fuel r).map (fun p => (Json.arr p.1, p.2))
      else if c = lbrace then
        match skipWs rest with
        | d :: r2 =>
          if d = rbrace then some (Json.obj [], r2)
          else (parseMembers fuel (d :: r2)).map (fun p => (Json.obj p.1, p.2))
        | [] => none
      else if c = 'n' then
        match rest with
        | 'u' :: 'l' :: 'l' :: r => some (Json.null, r)
        | _ => none
      else if c = 't' then
        match rest with
        | 'r' :: 'u' :: 'e' :: r => some (Json.bool true, r)
        | _ => none
      else if c = 'f' then
        match rest with
        | 'a' :: 'l' :: 's' :: 'e' :: r => some (Json.bool false, r)
        | _ => none
      else parseNum (c :: rest)

/-- Parse the comma-separated items of a nonempty JSON array, up to and
including the closing bracket. -/
def parseItems : Nat → List Char → Option (List Json × List Char)
  | 0, _ => none
  | Nat.succ fuel, cs =>
    match parseVal fuel cs with
    | none => none
    | some (j, rest) =>
      match skipWs rest with
      | ',' :: r =>
        match parseItems fuel r with
        | none => none
        | some (js, rest2) => some (j :: js, rest2)
      | ']' :: r => some ([j], r)
      | _ => none

/-- Parse the comma-separated members of a nonempty JSON object, up to and
including the closing brace. -/
def parseMembers : Nat → List Char → Option (List (String × Json) × List Char)
  | 0, _ => none
  | Nat.succ fuel, cs =>
    match skipWs cs with
    | c :: rest =>
      if c = '"' then
        match parseStrAux [] rest with
        | none => none
        | some (k, r1) =>
          match skipWs r1 with
          | ':' :: r2 =>
            match parseVal fuel r2 with
            | none => none
            | some (v, r3) =>
              match skipWs r3 with
              | ',' :: r4 =>
                match parseMembers fuel r4 with
                | none => none
                | some (ms, r5) => some ((k, v) :: ms, r5)
              | d :: r4 => if d = rbrace then some ([(k, v)], r4) else none
              | [] => none
          | _ => none
      else none
    | [] => none

end

/-- JavaScript `JSON.parse` on a string: parse one value and require only
whitespace to remain.  `none` models a thrown `SyntaxError`. -/
def jsonParse (s : String) : Option Json :=
  match parseVal (2 * s.length + 2) s.data with
  | some (j, rest) => if skipWs rest = [] then some j else none
  | none => none

/-- JavaScript `JSON.parse` applied to a possibly-null argument, as in
`JSON.parse(movie.genres)`: a null argument is coerced to the string
`"null"` before parsing (and hence parses to the JSON `null` value). -/
def jsParseAny : Option String → Option Json
  | none => jsonParse ("null")
  | some s => jsonParse s

/-! ### A model of the SQLite LIKE operator -/

/-- SQLite's ASCII case folding: `LIKE` compares characters after folding
the 26 upper-case ASCII letters to lower case. -/
def lowerChar (c : Char) : Char :=
  if 'A' ≤ c ∧ c ≤ 'Z' then Char.ofNat (c.toNat + 32) else c

/-- Fuel-indexed matcher for the SQLite `LIKE` operator (default
behavior: `%` matches any sequence, `_` matches any single character,
other characters compare case-insensitively over ASCII).  Every
recursive call shortens the pattern or the subject, so any fuel above
`p.length + s.length` gives the operator's value. -/
def likeMatchF : Nat → List Char → List Char → Bool
  | 0, _, _ => false
  | Nat.succ f, p, s =>
    match p, s with
    | [], s => s.isEmpty
    | c :: p, s =>
      if c = '%' then
        likeMatchF f p s ||
          (match s with
           | [] => false
           | _ :: s2 => likeMatchF f (c :: p) s2)
      else
        match s with
        | [] => false
        | d :: s2 => (if c = '_' then true else lowerChar c == lowerChar d) && likeMatchF f p s2

/-- The SQLite `LIKE` operator. -/
def likeMatch (p s : List Char) : Bool := likeMatchF (p.length + s.length + 1) p s

/-! ### Data model: stored rows, stores, DTOs, errors, query traces -/

/-- A raw row of the `movies` table (the `MovieRow` interface).  Nullable
columns are `Option`; `genres` and `productionCompanies` hold JSON text. -/
structure MovieRow where
  movieId : Int
  imdbId : String
  title : String
  overview : Option String
  releaseDate : Option String
  budget : Option Int
  runtime : Option Int
  language : String
  genres : Option String
  productionCompanies : Option String
deriving DecidableEq

/-- A raw row of the `ratings` table: one rating sample, keyed by the
catalog's internal `movieId`. -/
structure RatingSample where
  movieId : Int
  rating : ℚ
deriving DecidableEq

/-- The two stores, with an injectable query failure for each (a `some`
message means every query against that store fails with that error, as
sqlite3 reports errors through the callback's `err` argument). -/
structure Env where
  movies : List MovieRow
  ratings : List RatingSample
  moviesErr : Option String
  ratingsErr : Option String
deriving DecidableEq

/-- Requested sort order for the year listing. -/
inductive SortOrder where
  | asc : SortOrder
  | desc : SortOrder
deriving DecidableEq

/-- A store query issued by the service, with its parameters. -/
inductive Query where
  | catalogPage (limit offset : Nat)
  | catalogByImdb (imdbId : String)
  | catalogByYear (year : String) (ord : SortOrder) (limit offset : Nat)
  | catalogByGenre (pattern : String) (limit offset : Nat)
  | ratingAvg (movieId : Int)
deriving DecidableEq

/-- An error surfaced by the service: a store error rejected through the
callback, or a `SyntaxError` thrown by `JSON.parse` on malformed text. -/
inductive JsErr where
  | dbErr (msg : String)
  | jsonSyntax
deriving DecidableEq

/-- The list-item DTO produced by the three listing operations: the five
selected columns, with `genres` parsed and `budget` formatted. -/
structure ListItem where
  imdbId : String
  title : String
  genres : Json
  releaseDate : Option String
  budget : String

/-- The detail DTO produced by `getMovieDetailsByImdbId`. -/
structure MovieDetails where
  imdbId : String
  title : String
  description : Option String
  releaseDate : Option String
  budget : String
  runtime : Option Int
  averageRating : Option ℚ
  genres : Json
  originalLanguage : String
  productionCompanies : Json

/-! ### Shared row shaping -/

/-- The budget display rule used by every operation:
`movie.budget !== null && movie.budget !== undefined ? `$${movie.budget}` : 'N/A'`. -/
def fmtBudget : Option Int → String
  | none => "N/A"
  | some n => "$" ++ toString n

/-- The guarded genre normalization `row.genres ? JSON.parse(row.genres) : []`
used by `getMovieDetailsByImdbId`, `getMoviesByYear` and `getMoviesByGenre`:
a falsy value (null or the empty string) yields the empty array, anything
else is parsed. -/
def parseGenresGuarded : Option String → Option Json
  | none => some (Json.arr [])
  | some s => if s = "" then some (Json.arr []) else jsonParse s

/-- Rounding to one decimal place, modeling
`parseFloat(x.toFixed(1))` on an exact value. -/
def round1 (q : ℚ) : ℚ := (round (q * 10) : ℤ) / 10

/-- Map a shaping function over rows, stopping at the first thrown error
(as the `rows.map` callback would). -/
def mapOrErr {α β : Type} (f : α → Except JsErr β) : List α → Except JsErr (List β)
  | [] => .ok []
  | a :: l =>
    match f a with
    | .error e => .error e
    | .ok b =>
      match mapOrErr f l with
      | .error e => .error e
      | .ok bs => .ok (b :: bs)

/-- Shaping of one row by `getPaginatedMovies`: note that the source
applies `JSON.parse(movie.genres)` with no null guard there. -/
def shapeRowUnguarded (m : MovieRow) : Except JsErr ListItem :=
  match jsParseAny m.genres with
  | none => .error .jsonSyntax
  | some j =>
    .ok { imdbId := m.imdbId, title := m.title, genres := j,
          releaseDate := m.releaseDate, budget := fmtBudget m.budget }

/-- Shaping of one row by `getMoviesByYear` and `getMoviesByGenre`
(`row.genres ? JSON.parse(row.genres) : []`). -/
def shapeRowGuarded (m : MovieRow) : Except JsErr ListItem :=
  match parseGenresGuarded m.genres with
  | none => .error .jsonSyntax
  | some j =>
    .ok { imdbId := m.imdbId, title := m.title, genres := j,
          releaseDate := m.releaseDate, budget := fmtBudget m.budget }

/-! ### The four service operations -/

/-- `getPaginatedMovies(page)`: `SELECT imdbId, title, genres, releaseDate,
budget FROM movies LIMIT 50 OFFSET (page-1)*50`, then shape each row. -/
def getPaginatedMovies (env : Env) (page : Nat) :
    Except JsErr (List ListItem) × List Query :=
  let pageSize := 50
  let offset := (page - 1) * pageSize
  let q := Query.catalogPage pageSize offset
  match env.moviesErr with
  | some e => (.error (.dbErr e), [q])
  | none => (mapOrErr shapeRowUnguarded ((env.movies.drop offset).take pageSize), [q])

/-- The rating samples the rating store's `AVG(rating) ... WHERE movieId = ?`
aggregates over for one internal movie id. -/
def samplesFor (env : Env) (mid : Int) : List ℚ :=
  (env.ratings.filter (fun r => r.movieId == mid)).map (fun r => r.rating)

/-- The rating-store callback of `getMovieDetailsByImdbId`, run once the
catalog row has been found: query `AVG(rating)` for the row's internal
`movieId` and build the detail DTO (`averageRating` is set only when the
aggregate is truthy, i.e. non-null and nonzero). -/
def detailAfterFind (env : Env) (imdbId : String) (row : MovieRow) :
    Except JsErr (Option MovieDetails) × List Query :=
  let q1 := Query.catalogByImdb imdbId
  let q2 := Query.ratingAvg row.movieId
  match env.ratingsErr with
  | some e => (.error (.dbErr e), [q1, q2])
  | none =>
    let vs := samplesFor env row.movieId
    let avg : Option ℚ := if vs.isEmpty then none else some (vs.sum / (vs.length : ℚ))
    match parseGenresGuarded row.genres, parseGenresGuarded row.productionCompanies with
    | some gj, some pj =>
      (.ok (some
        { imdbId := row.imdbId, title := row.title, description := row.overview,
          releaseDate := row.releaseDate, budget := fmtBudget row.budget,
          runtime := row.runtime,
          averageRating :=
            match avg with
            | none => none
            | some a => if a = 0 then none else some (round1 a),
          genres := gj, originalLanguage := row.language,
          productionCompanies := pj }), [q1, q2])
    | _, _ => (.error .jsonSyntax, [q1, q2])

/-- `getMovieDetailsByImdbId(imdbId)`: look up the first catalog row with
that `imdbId`; on a miss resolve `null`; on a hit run the rating lookup
and response shaping of `detailAfterFind`. -/
def getMovieDetailsByImdbId (env : Env) (imdbId : String) :
    Except JsErr (Option MovieDetails) × List Query :=
  let q1 := Query.catalogByImdb imdbId
  match env.moviesErr with
  | some e => (.error (.dbErr e), [q1])
  | none =>
    match env.movies.find? (fun m => m.imdbId == imdbId) with
    | none => (.ok none, [q1])
    | some row => detailAfterFind env imdbId row

/-- The `WHERE substr(releaseDate, 1, 4) = ?` filter (SQL `NULL` never
compares equal, so rows with a null release date are excluded). -/
def yearSel (year : String) (m : MovieRow) : Bool :=
  match m.releaseDate with
  | some d => d.take 4 == year
  | none => false

/-- Sort key for `ORDER BY releaseDate` (only rows with a non-null
release date reach the sort in `getMoviesByYear`). -/
def dateKey (m : MovieRow) : String :=
  match m.releaseDate with
  | some d => d
  | none => ""

/-- Lexicographic byte order on character lists, the order SQLite's
default BINARY collation gives to the stored text. -/
def charsLe : List Char → List Char → Bool
  | [], _ => true
  | _ :: _, [] => false
  | a :: as, b :: bs =>
    if a.toNat < b.toNat then true
    else if b.toNat < a.toNat then false
    else charsLe as bs

/-- BINARY-collation comparison of two strings. -/
def strLe (a b : String) : Bool := charsLe a.data b.data

/-- Ascending comparison on release date. -/
def dateLe (a b : MovieRow) : Prop := strLe (dateKey a) (dateKey b) = true

/-- Descending comparison on release date. -/
def dateGe (a b : MovieRow) : Prop := strLe (dateKey b) (dateKey a) = true

instance : DecidableRel dateLe := fun a b =>
  inferInstanceAs (Decidable (strLe (dateKey a) (dateKey b) = true))

instance : DecidableRel dateGe := fun a b =>
  inferInstanceAs (Decidable (strLe (dateKey b) (dateKey a) = true))

theorem charsLe_total : ∀ a b : List Char, charsLe a b = true ∨ charsLe b a = true := by
  intro a
  induction a with
  | nil => intro b; left; rfl
  | cons x as ih =>
    intro b
    cases b with
    | nil => right; rfl
    | cons y bs =>
      by_cases hxy : x.toNat < y.toNat
      · left; simp [charsLe, hxy]
      · by_cases hyx : y.toNat < x.toNat
        · right; simp [charsLe, hyx]
        · rcases ih bs with h | h
          · left; simp [charsLe, hxy, hyx, h]
          · right; simp [charsLe, hxy, hyx, h]

theorem charsLe_trans : ∀ a b c : List Char,
    charsLe a b = true → charsLe b c = true → charsLe a c = true := by
  intro a
  induction a with
  | nil => intro b c _ _; rfl
  | cons x as ih =>
    intro b c hab hbc
    cases b with
    | nil => simp [charsLe] at hab
    | cons y bs =>
      cases c with
      | nil => simp [charsLe] at hbc
      | cons z cs =>
        simp only [charsLe] at hab hbc ⊢
        by_cases hxy : x.toNat < y.toNat
        · by_cases hyz : y.toNat < z.toNat
          · simp [show x.toNat < z.toNat from by omega]
          · by_cases hzy : z.toNat < y.toNat
            · simp [hyz, hzy] at hbc
            · simp [show x.toNat < z.toNat from by omega]
        · by_cases hyx : y.toNat < x.toNat
          · simp [hxy, hyx] at hab
          · replace hab : charsLe as bs = true := by simpa [hxy, hyx] using hab
            by_cases hyz : y.toNat < z.toNat
            · simp [show x.toNat < z.toNat from by omega]
            · by_cases hzy : z.toNat < y.toNat
              · simp [hyz, hzy] at hbc
              · replace hbc : charsLe bs cs = true := by simpa [hyz, hzy] using hbc
                simp [show ¬ x.toNat < z.toNat from by omega,
                      show ¬ z.toNat < x.toNat from by omega, ih bs cs hab hbc]

instance : IsTotal MovieRow dateLe := ⟨fun a b => charsLe_total (dateKey a).data (dateKey b).data⟩

instance : IsTrans MovieRow dateLe :=
  ⟨fun _ _ _ h1 h2 => charsLe_trans _ _ _ h1 h2⟩

instance : IsTotal MovieRow dateGe := ⟨fun a b => charsLe_total (dateKey b).data (dateKey a).data⟩

instance : IsTrans MovieRow dateGe :=
  ⟨fun _ _ _ h1 h2 => charsLe_trans _ _ _ h2 h1⟩

/-- `getMoviesByYear(year, page, sortOrder)`: filter on the release-date
prefix, order by release date in the requested direction, paginate at 50
per page, then shape each row with the guarded genre parse. -/
def getMoviesByYear (env : Env) (year : String) (page : Nat) (ord : SortOrder) :
    Except JsErr (List ListItem) × List Query :=
  let limit := 50
  let offset := (page - 1) * limit
  let q := Query.catalogByYear year ord limit offset
  match env.moviesErr with
  | some e => (.error (.dbErr e), [q])
  | none =>
    let selected := env.movies.filter (yearSel year)
    let sorted :=
      match ord with
      | .asc => List.insertionSort dateLe selected
      | .desc => List.insertionSort dateGe selected
    (mapOrErr shapeRowGuarded ((sorted.drop offset).take limit), [q])

/-- The `WHERE m.genres LIKE '%genre%'` filter (`NULL LIKE` is `NULL`,
so rows with null genre text are excluded). -/
def genreSel (genre : String) (m : MovieRow) : Bool :=
  match m.genres with
  | some s => likeMatch ('%' :: (genre.data ++ ['%'])) s.data
  | none => false

/-- `getMoviesByGenre(genre, page)`: filter with `LIKE '%genre%'`,
paginate at 50 per page, then shape each row with the guarded genre
parse. -/
def getMoviesByGenre (env : Env) (genre : String) (page : Nat) :
    Except JsErr (List ListItem) × List Query :=
  let limit := 50
  let offset := (page - 1) * limit
  let q := Query.catalogByGenre ("%" ++ genre ++ "%") limit offset
  match env.moviesErr with
  | some e => (.error (.dbErr e), [q])
  | none =>
    (mapOrErr shapeRowGuarded (((env.movies.filter (genreSel genre)).drop offset).take limit), [q])

/-! ### General lemmas about the shaping combinator -/

theorem mapOrErr_length {α β : Type} (f : α → Except JsErr β) :
    ∀ {l : List α} {out : List β}, mapOrErr f l = .ok out → out.length = l.length := by
  intro l
  induction l with
  | nil =>
    intro out h
    simp only [mapOrErr] at h
    cases h
    rfl
  | cons a l ih =>
    intro out h
    simp only [mapOrErr] at h
    cases h1 : f a with
    | error e => rw [h1] at h; cases h
    | ok b =>
      rw [h1] at h
      cases h2 : mapOrErr f l with
      | error e => rw [h2] at h; cases h
      | ok bs =>
        rw [h2] at h
        cases h
        simp [ih h2]

theorem mapOrErr_mem {α β : Type} (f : α → Except JsErr β) :
    ∀ {l : List α} {out : List β}, mapOrErr f l = .ok out →
      ∀ b ∈ out, ∃ a ∈ l, f a = .ok b := by
  intro l
  induction l with
  | nil =>
    intro out h b hb
    simp only [mapOrErr] at h
    cases h
    simp at hb
  | cons a l ih =>
    intro out h b hb
    simp only [mapOrErr] at h
    cases h1 : f a with
    | error e => rw [h1] at h; cases h
    | ok b0 =>
      rw [h1] at h
      cases h2 : mapOrErr f l with
      | error e => rw [h2] at h; cases h
      | ok bs =>
        rw [h2] at h
        cases h
        rcases List.mem_cons.mp hb with hb | hb
        · exact ⟨a, List.mem_cons_self a l, hb ▸ h1⟩
        · rcases ih h2 b hb with ⟨a', ha', hfa'⟩
          exact ⟨a', List.mem_cons_of_mem a ha', hfa'⟩

theorem mapOrErr_pairwise {α β : Type} {R : α → α → Prop} {S : β → β → Prop}
    (f : α → Except JsErr β)
    (hf : ∀ a a' b b', f a = .ok b → f a' = .ok b' → R a a' → S b b') :
    ∀ {l : List α} {out : List β}, mapOrErr f l = .ok out → l.Pairwise R → out.Pairwise S := by
  intro l
  induction l with
  | nil =>
    intro out h _
    simp only [mapOrErr] at h
    cases h
    exact List.Pairwise.nil
  | cons a l ih =>
    intro out h hp
    simp only [mapOrErr] at h
    cases h1 : f a with
    | error e => rw [h1] at h; cases h
    | ok b0 =>
      rw [h1] at h
      cases h2 : mapOrErr f l with
      | error e => rw [h2] at h; cases h
      | ok bs =>
        rw [h2] at h
        cases h
        rcases List.pairwise_cons.mp hp with ⟨hhead, htail⟩
        refine List.pairwise_cons.mpr ⟨?_, ih h2 htail⟩
        intro b' hb'
        rcases mapOrErr_mem f h2 b' hb' with ⟨a', ha', hfa'⟩
        exact hf a a' b0 b' h1 hfa' (hhead a' ha')

theorem mapOrErr_map {α β γ : Type} (f : α → Except JsErr β) (g : γ → α) :
    ∀ l : List γ, mapOrErr f (l.map g) = mapOrErr (fun c => f (g c)) l := by
  intro l
  induction l with
  | nil => rfl
  | cons c l ih => simp only [List.map_cons, mapOrErr, ih]

theorem mapOrErr_congr {α β : Type} {f f' : α → Except JsErr β} :
    ∀ {l : List α}, (∀ a ∈ l, f a = f' a) → mapOrErr f l = mapOrErr f' l := by
  intro l
  induction l with
  | nil => intro _; rfl
  | cons a l ih =>
    intro h
    simp only [mapOrErr, h a (List.mem_cons_self a l),
      ih fun a' ha' => h a' (List.mem_cons_of_mem a ha')]

/-! ### Destructing the row shapers -/

theorem shapeRowUnguarded_ok {m : MovieRow} {it : ListItem}
    (h : shapeRowUnguarded m = .ok it) :
    jsParseAny m.genres = some it.genres ∧ it.imdbId = m.imdbId ∧ it.title = m.title ∧
      it.releaseDate = m.releaseDate ∧ it.budget = fmtBudget m.budget := by
  unfold shapeRowUnguarded at h
  cases hj : jsParseAny m.genres with
  | none => rw [hj] at h; cases h
  | some j => rw [hj] at h; cases h; exact ⟨rfl, rfl, rfl, rfl, rfl⟩

theorem shapeRowGuarded_ok {m : MovieRow} {it : ListItem}
    (h : shapeRowGuarded m = .ok it) :
    parseGenresGuarded m.genres = some it.genres ∧ it.imdbId = m.imdbId ∧ it.title = m.title ∧
      it.releaseDate = m.releaseDate ∧ it.budget = fmtBudget m.budget := by
  unfold shapeRowGuarded at h
  cases hj : parseGenresGuarded m.genres with
  | none => rw [hj] at h; cases h
  | some j => rw [hj] at h; cases h; exact ⟨rfl, rfl, rfl, rfl, rfl⟩

/-- Membership in a `LIMIT`/`OFFSET` window of a list implies membership
in the list. -/
theorem mem_window {α : Type} {m : α} {l : List α} {o k : Nat}
    (h : m ∈ (l.drop o).take k) : m ∈ l :=
  List.mem_of_mem_drop (List.mem_of_mem_take h)

/-! ### Concrete store contents used by witnesses and counterexamples -/

/-- Genre text of an action movie, as stored: `[{"id":28,"name":"Action"}]`. -/
def actionText : String := "[\x7b\"id\":28,\"name\":\"Action\"\x7d]"

/-- Production-company text as stored: `[{"id":10,"name":"Studio"}]`. -/
def companiesText : String := "[\x7b\"id\":10,\"name\":\"Studio\"\x7d]"

/-- A fully-populated catalog row. -/
def rowA : MovieRow :=
  { movieId := 1, imdbId := "tt0001", title := "Alpha", overview := some ("A film."),
    releaseDate := some ("2005-03-01"), budget := some 1000000, runtime := some 100,
    language := "en", genres := some actionText, productionCompanies := some companiesText }

/-- A catalog row with null genre text, null companies and null budget. -/
def rowB : MovieRow :=
  { movieId := 2, imdbId := "tt0002", title := "Beta", overview := none,
    releaseDate := some ("2005-07-09"), budget := none, runtime := none,
    language := "fr", genres := none, productionCompanies := none }

/-- A catalog row from another year. -/
def rowC : MovieRow :=
  { movieId := 3, imdbId := "tt0003", title := "Gamma", overview := some ("C film."),
    releaseDate := some ("2003-01-01"), budget := some 0, runtime := some 90,
    language := "en", genres := some actionText, productionCompanies := some companiesText }

/-- A healthy environment: three catalog rows; movie 1 has samples
`[4, 4, 5]` (mean `13/3`), movie 2 has the single sample `[0]` (mean `0`),
movie 3 has no samples. -/
def envA : Env :=
  { movies := [rowA, rowB, rowC],
    ratings := [⟨1, 4⟩, ⟨1, 4⟩, ⟨1, 5⟩, ⟨2, 0⟩],
    moviesErr := none, ratingsErr := none }

/-- An environment whose catalog store fails every query. -/
def envErrM : Env :=
  { movies := [rowA], ratings := [], moviesErr := some ("movies db down"), ratingsErr := none }

/-- An environment whose rating store fails every query. -/
def envErrR : Env :=
  { movies := [rowA], ratings := [], moviesErr := none, ratingsErr := some ("ratings db down") }

/-! ### C7: listPage pagination -/

/-- C7: for every page `p ≥ 1`, `listPage(p)` issues exactly one Catalog
Store query with offset `(p-1)*50` and limit `50`, and returns at most 50
ListItemDTOs. -/
theorem C7_listPage_pagination (env : Env) (p : Nat) (hp : 1 ≤ p) :
    (getPaginatedMovies env p).2 = [Query.catalogPage 50 ((p - 1) * 50)] ∧
    ∀ out, (getPaginatedMovies env p).1 = .ok out → out.length ≤ 50 := by
  constructor
  · cases h : env.moviesErr <;> simp [getPaginatedMovies, h]
  · intro out hout
    cases h : env.moviesErr with
    | some e => simp [getPaginatedMovies, h] at hout
    | none =>
      simp only [getPaginatedMovies, h] at hout
      rw [mapOrErr_length _ hout, List.length_take]
      exact min_le_left _ _

/-- Witness for C7 at page 2 of the concrete environment. -/
theorem C7_listPage_pagination_witness :
    (getPaginatedMovies envA 2).2 = [Query.catalogPage 50 50] ∧
    ∀ out, (getPaginatedMovies envA 2).1 = .ok out → out.length ≤ 50 :=
  C7_listPage_pagination envA 2 (by decide)

/-! ### C4: detail lookup on an unknown public id -/

/-- C4: for a publicId with no matching catalog record, `getDetail`
returns the null sentinel without an error and never issues a Rating
Store query. -/
theorem C4_detail_notFound (env : Env) (id : String)
    (hm : env.moviesErr = none)
    (hfind : env.movies.find? (fun m => m.imdbId == id) = none) :
    (getMovieDetailsByImdbId env id).1 = .ok none ∧
    ∀ mid, Query.ratingAvg mid ∉ (getMovieDetailsByImdbId env id).2 := by
  constructor
  · simp [getMovieDetailsByImdbId, hm, hfind]
  · intro mid
    simp [getMovieDetailsByImdbId, hm, hfind]

/-- Witness for C4 at a concrete unknown id. -/
theorem C4_detail_notFound_witness :
    (getMovieDetailsByImdbId envA ("tt9999")).1 = .ok none ∧
    ∀ mid, Query.ratingAvg mid ∉ (getMovieDetailsByImdbId envA ("tt9999")).2 :=
  C4_detail_notFound envA ("tt9999") rfl (by decide)

/-! ### C5: store failures propagate unchanged -/

/-- C5: a catalog-store failure, or a rating-store failure after the
catalog record was found, surfaces as the store's error unchanged —
never as a partial DetailDTO. -/
theorem C5_detail_storeErrors (env : Env) (id : String) :
    (∀ e, env.moviesErr = some e →
      (getMovieDetailsByImdbId env id).1 = .error (.dbErr e)) ∧
    (∀ e row, env.moviesErr = none → env.ratingsErr = some e →
      env.movies.find? (fun m => m.imdbId == id) = some row →
      (getMovieDetailsByImdbId env id).1 = .error (.dbErr e)) := by
  constructor
  · intro e he
    simp [getMovieDetailsByImdbId, he]
  · intro e row hm hr hfind
    simp [getMovieDetailsByImdbId, detailAfterFind, hm, hr, hfind]

/-- Witness for C5: both failure modes at concrete environments. -/
theorem C5_detail_storeErrors_witness :
    (getMovieDetailsByImdbId envErrM ("tt0001")).1 = .error (.dbErr ("movies db down")) ∧
    (getMovieDetailsByImdbId envErrR ("tt0001")).1 = .error (.dbErr ("ratings db down")) :=
  ⟨(C5_detail_storeErrors envErrM ("tt0001")).1 _ rfl,
   (C5_detail_storeErrors envErrR ("tt0001")).2 _ rowA rfl rfl (by decide)⟩

/-! ### C6: the budget display rule, uniformly across all four operations -/

/-- C6: a null budget renders as `"N/A"`, zero as `"$0"`, a positive
value `n` as `"$" ++ n` with no separators; and in the output of each of
the four operations, every DTO's budget is the stored budget of one of
the catalog rows rendered by this rule. -/
theorem C6_budget_display :
    fmtBudget none = "N/A" ∧ fmtBudget (some 0) = "$0" ∧
    (∀ n : Int, 0 < n → fmtBudget (some n) = "$" ++ toString n) ∧
    (∀ env p out tr, getPaginatedMovies env p = (.ok out, tr) →
      ∀ it ∈ out, ∃ m ∈ env.movies, it.budget = fmtBudget m.budget) ∧
    (∀ env y p o out tr, getMoviesByYear env y p o = (.ok out, tr) →
      ∀ it ∈ out, ∃ m ∈ env.movies, it.budget = fmtBudget m.budget) ∧
    (∀ env g p out tr, getMoviesByGenre env g p = (.ok out, tr) →
      ∀ it ∈ out, ∃ m ∈ env.movies, it.budget = fmtBudget m.budget) ∧
    (∀ env id d tr, getMovieDetailsByImdbId env id = (.ok (some d), tr) →
      ∃ m ∈ env.movies, d.budget = fmtBudget m.budget) := by
  refine ⟨rfl, rfl, fun n _ => rfl, ?_, ?_, ?_, ?_⟩
  · intro env p out tr h it hit
    have h1 : (getPaginatedMovies env p).1 = .ok out := by rw [h]
    cases hm : env.moviesErr with
    | some e => simp [getPaginatedMovies, hm] at h1
    | none =>
      simp only [getPaginatedMovies, hm] at h1
      rcases mapOrErr_mem _ h1 it hit with ⟨m, hmem, hsh⟩
      exact ⟨m, mem_window hmem, (shapeRowUnguarded_ok hsh).2.2.2.2⟩
  · intro env y p o out tr h it hit
    have h1 : (getMoviesByYear env y p o).1 = .ok out := by rw [h]
    cases hm : env.moviesErr with
    | some e => simp [getMoviesByYear, hm] at h1
    | none =>
      cases o with
      | asc =>
        simp only [getMoviesByYear, hm] at h1
        rcases mapOrErr_mem _ h1 it hit with ⟨m, hmem, hsh⟩
        refine ⟨m, ?_, (shapeRowGuarded_ok hsh).2.2.2.2⟩
        exact (List.mem_filter.mp
          ((List.perm_insertionSort dateLe _).mem_iff.mp (mem_window hmem))).1
      | desc =>
        simp only [getMoviesByYear, hm] at h1
        rcases mapOrErr_mem _ h1 it hit with ⟨m, hmem, hsh⟩
        refine ⟨m, ?_, (shapeRowGuarded_ok hsh).2.2.2.2⟩
        exact (List.mem_filter.mp
          ((List.perm_insertionSort dateGe _).mem_iff.mp (mem_window hmem))).1
  · intro env g p out tr h it hit
    have h1 : (getMoviesByGenre env g p).1 = .ok out := by rw [h]
    cases hm : env.moviesErr with
    | some e => simp [getMoviesByGenre, hm] at h1
    | none =>
      simp only [getMoviesByGenre, hm] at h1
      rcases mapOrErr_mem _ h1 it hit with ⟨m, hmem, hsh⟩
      exact ⟨m, (List.mem_filter.mp (mem_window hmem)).1,
        (shapeRowGuarded_ok hsh).2.2.2.2⟩
  · intro env id d tr h
    have h1 : (getMovieDetailsByImdbId env id).1 = .ok (some d) := by rw [h]
    cases hm : env.moviesErr with
    | some e => simp [getMovieDetailsByImdbId, hm] at h1
    | none =>
      cases hf : env.movies.find? (fun m => m.imdbId == id) with
      | none => simp [getMovieDetailsByImdbId, hm, hf] at h1
      | some row =>
        cases hr : env.ratingsErr with
        | some e => simp [getMovieDetailsByImdbId, detailAfterFind, hm, hf, hr] at h1
        | none =>
          refine ⟨row, List.mem_of_find?_eq_some hf, ?_⟩
          simp only [getMovieDetailsByImdbId, detailAfterFind, hm, hf, hr] at h1
          cases hg : parseGenresGuarded row.genres with
          | none => rw [hg] at h1; simp at h1
          | some gj =>
            cases hp2 : parseGenresGuarded row.productionCompanies with
            | none => rw [hg, hp2] at h1; simp at h1
            | some pj =>
              rw [hg, hp2] at h1
              simp only [Except.ok.injEq, Option.some.injEq] at h1
              rw [← h1]

/-- Witness for C6's positive-budget clause at a concrete value. -/
theorem C6_budget_display_witness :
    fmtBudget (some 0) = "$0" ∧ fmtBudget (some 5000000) = "$5000000" :=
  ⟨C6_budget_display.2.1, C6_budget_display.2.2.1 5000000 (by norm_num)⟩

/-! ### C10: a zero mean is reported as null (truthiness) -/

/-- C10: movie `tt0002` has exactly one rating sample, of value 0, so its
mean is exactly 0; `getDetail` reports `averageRating = null` for it (not
`0.0`), because the implementation tests JavaScript truthiness of the raw
aggregate. -/
theorem C10_truthiness_zeroMean :
    samplesFor envA rowB.movieId = [0] ∧
    ((getMovieDetailsByImdbId envA ("tt0002")).1.toOption.map
      (fun o => o.map (fun d => d.averageRating))) = some (some none) := by
  constructor
  · rfl
  · have hfind : envA.movies.find? (fun m => m.imdbId == ("tt0002")) = some rowB := by decide
    simp only [getMovieDetailsByImdbId, detailAfterFind,
      show envA.moviesErr = none from rfl, hfind,
      show envA.ratingsErr = none from rfl,
      show parseGenresGuarded rowB.genres = some (Json.arr []) from rfl,
      show parseGenresGuarded rowB.productionCompanies = some (Json.arr []) from rfl,
      show samplesFor envA rowB.movieId = [0] from rfl]
    norm_num
    exact ⟨_, rfl, _, rfl, rfl⟩

/-! ### C1: averageRating aggregation -/

/-- C1 (counterexample to the claim as stated): movie `tt0002` has the
nonempty sample list `[0]`, whose rounded arithmetic mean is `0`, yet
`getDetail` reports `averageRating = null` rather than that mean. -/
theorem C1_roundedMean_counterexample :
    samplesFor envA rowB.movieId = [0] ∧
    round1 (([(0 : ℚ)].sum) / (([(0 : ℚ)].length : ℚ))) = 0 ∧
    ((getMovieDetailsByImdbId envA ("tt0002")).1.toOption.map
      (fun o => o.map (fun d => d.averageRating))) = some (some none) ∧
    (some none : Option (Option ℚ)) ≠ some (some 0) := by
  refine ⟨rfl, ?_, ?_, by simp⟩
  · norm_num [round1, round_eq]
  · have hfind : envA.movies.find? (fun m => m.imdbId == ("tt0002")) = some rowB := by decide
    simp only [getMovieDetailsByImdbId, detailAfterFind,
      show envA.moviesErr = none from rfl, hfind,
      show envA.ratingsErr = none from rfl,
      show parseGenresGuarded rowB.genres = some (Json.arr []) from rfl,
      show parseGenresGuarded rowB.productionCompanies = some (Json.arr []) from rfl,
      show samplesFor envA rowB.movieId = [0] from rfl]
    norm_num
    exact ⟨_, rfl, _, rfl, rfl⟩

/-- C1 (amended): for a publicId whose catalog record exists and whose
JSON-text fields are well formed, `getDetail` reports `averageRating` as
null when the movie has no rating samples; otherwise as the arithmetic
mean of the samples rounded to one decimal place — except that a sample
list whose mean is exactly 0 is also reported as null (the implementation
tests JavaScript truthiness of the raw aggregate). -/
theorem C1_averageRating_amended (env : Env) (id : String) (row : MovieRow)
    (hm : env.moviesErr = none) (hr : env.ratingsErr = none)
    (hfind : env.movies.find? (fun m => m.imdbId == id) = some row)
    (hg : (parseGenresGuarded row.genres).isSome)
    (hp2 : (parseGenresGuarded row.productionCompanies).isSome) :
    ∃ d, (getMovieDetailsByImdbId env id).1 = .ok (some d) ∧
      (samplesFor env row.movieId = [] → d.averageRating = none) ∧
      (samplesFor env row.movieId ≠ [] →
        (samplesFor env row.movieId).sum / ((samplesFor env row.movieId).length : ℚ) ≠ 0 →
        d.averageRating =
          some (round1 ((samplesFor env row.movieId).sum /
            ((samplesFor env row.movieId).length : ℚ)))) ∧
      (samplesFor env row.movieId ≠ [] →
        (samplesFor env row.movieId).sum / ((samplesFor env row.movieId).length : ℚ) = 0 →
        d.averageRating = none) := by
  obtain ⟨gj, hgj⟩ := Option.isSome_iff_exists.mp hg
  obtain ⟨pj, hpj⟩ := Option.isSome_iff_exists.mp hp2
  simp only [getMovieDetailsByImdbId, detailAfterFind, hm, hfind, hr, hgj, hpj]
  refine ⟨_, rfl, ?_, ?_, ?_⟩
  · intro hvs
    simp [hvs]
  · intro hne hmean
    cases hvs : samplesFor env row.movieId with
    | nil => exact absurd hvs hne
    | cons a t =>
      rw [hvs] at hmean
      simp only [hvs, List.isEmpty_cons, Bool.false_eq_true, if_false]
      rw [if_neg hmean]
  · intro hne hmean
    cases hvs : samplesFor env row.movieId with
    | nil => exact absurd hvs hne
    | cons a t =>
      rw [hvs] at hmean
      simp only [hvs, List.isEmpty_cons, Bool.false_eq_true, if_false]
      rw [if_pos hmean]

/-- Witness for C1 (amended) at movie `tt0001`, whose samples `[4, 4, 5]`
have mean `13/3`, reported as `4.3`. -/
theorem C1_averageRating_amended_witness :
    ∃ d, (getMovieDetailsByImdbId envA ("tt0001")).1 = .ok (some d) ∧
      d.averageRating = some ((43 : ℚ) / 10) := by
  obtain ⟨d, hd, _, hsome, _⟩ :=
    C1_averageRating_amended envA ("tt0001") rowA rfl rfl (by decide) (by decide) (by decide)
  refine ⟨d, hd, ?_⟩
  have hvs : samplesFor envA rowA.movieId = [(4 : ℚ), 4, 5] := rfl
  have h1 : samplesFor envA rowA.movieId ≠ [] := by rw [hvs]; simp
  have h2 : (samplesFor envA rowA.movieId).sum /
      ((samplesFor envA rowA.movieId).length : ℚ) ≠ 0 := by
    rw [hvs]; norm_num
  rw [hsome h1 h2, hvs]
  norm_num [round1, round_eq]

/-! ### C2: normalization of the JSON-text columns -/

/-- Discriminator for the JSON `null` value. -/
def Json.isNull : Json → Bool
  | .null => true
  | _ => false

/-- A single-row healthy environment. -/
def envOf (m : MovieRow) : Env :=
  { movies := [m], ratings := [], moviesErr := none, ratingsErr := none }

/-- A catalog row whose genre text is present but not valid JSON. -/
def rowBad : MovieRow :=
  { movieId := 6, imdbId := "tt0666", title := "Broken", overview := none,
    releaseDate := some ("2001-01-01"), budget := some 5, runtime := none,
    language := "en", genres := some ("oops"), productionCompanies := none }

/-- A catalog row whose genre text is the empty string: present,
invalid as JSON, but falsy in JavaScript. -/
def rowEmpty : MovieRow :=
  { movieId := 7, imdbId := "tt0777", title := "Empty", overview := none,
    releaseDate := some ("2002-03-04"), budget := none, runtime := none,
    language := "en", genres := some (""), productionCompanies := none }

/-- With enough fuel, the pattern `%` matches every subject. -/
theorem likeMatchF_pct : ∀ (s : List Char) (f : Nat), s.length + 2 ≤ f →
    likeMatchF f ['%'] s = true := by
  intro s
  induction s with
  | nil =>
    intro f hf
    cases f with
    | zero => omega
    | succ f2 =>
      cases f2 with
      | zero => omega
      | succ f3 => rfl
  | cons c s2 ih =>
    intro f hf
    cases f with
    | zero => simp at hf
    | succ f2 =>
      have h2 : likeMatchF f2 ['%'] s2 = true := ih f2 (by simp at hf ⊢; omega)
      simp [likeMatchF, h2]

/-- With enough fuel, the pattern `%%` matches every subject. -/
theorem likeMatchF_pct_pct : ∀ (s : List Char) (f : Nat), s.length + 3 ≤ f →
    likeMatchF f ['%', '%'] s = true := by
  intro s
  induction s with
  | nil =>
    intro f hf
    cases f with
    | zero => omega
    | succ f2 =>
      have h1 : likeMatchF f2 ['%'] [] = true := likeMatchF_pct [] f2 (by omega)
      simp [likeMatchF, h1]
  | cons c s2 ih =>
    intro f hf
    cases f with
    | zero => simp at hf
    | succ f2 =>
      have h1 : likeMatchF f2 ['%'] (c :: s2) = true :=
        likeMatchF_pct (c :: s2) f2 (by simp at hf ⊢; omega)
      simp [likeMatchF, h1]

/-- The empty genre string selects every row with non-null genre text. -/
theorem genreSel_empty {m : MovieRow} {s : String} (h : m.genres = some s) :
    genreSel ("") m = true := by
  unfold genreSel
  rw [h]
  show likeMatch ('%' :: (([] : List Char) ++ ['%'])) s.data = true
  unfold likeMatch
  exact likeMatchF_pct_pct s.data _ (by simp; omega)

/-- C2 (counterexample to the claim as stated): row `tt0002` stores null
genre text; `listPage` materializes its genres as the JSON `null` value
(the result of parsing the coerced string `"null"`), not as the empty
array. -/
theorem C2_nullGenres_counterexample :
    rowB.genres = none ∧
    ((getPaginatedMovies envA 1).1.toOption.map
      (fun l => l.map (fun it => it.genres.isNull))) = some [false, true, false] ∧
    Json.isNull Json.null = true ∧ Json.isNull (Json.arr []) = false :=
  ⟨rfl, by decide, rfl, rfl⟩

/-- C2 (amended): valid JSON array text parses to the equivalent
structure in all four operations; null/absent text yields the empty
array in `getDetail`, `listByYear` and `listByGenre`, but in `listPage`
— which applies `JSON.parse` with no guard — null text is coerced and
parses to the JSON `null` value instead of the empty array;
present-but-invalid text raises a `SyntaxError` rather than being
replaced by an empty array, with one exception: the empty string is
invalid JSON but falsy in JavaScript, so the truthiness guard of the
three guarded operations silently normalizes it to the empty array
(only `listPage`, which has no guard, raises on it). -/
theorem C2_genre_normalization_amended :
    (parseGenresGuarded none = some (Json.arr []) ∧ jsParseAny none = some Json.null) ∧
    (∀ s j, s ≠ "" → jsonParse s = some j →
      parseGenresGuarded (some s) = some j ∧ jsParseAny (some s) = some j) ∧
    (∀ s, s ≠ "" → jsonParse s = none →
      parseGenresGuarded (some s) = none ∧ jsParseAny (some s) = none) ∧
    (∀ env p out tr, getPaginatedMovies env p = (.ok out, tr) →
      ∀ it ∈ out, ∃ m ∈ env.movies, jsParseAny m.genres = some it.genres) ∧
    (∀ env y p o out tr, getMoviesByYear env y p o = (.ok out, tr) →
      ∀ it ∈ out, ∃ m ∈ env.movies, parseGenresGuarded m.genres = some it.genres) ∧
    (∀ env g p out tr, getMoviesByGenre env g p = (.ok out, tr) →
      ∀ it ∈ out, ∃ m ∈ env.movies, parseGenresGuarded m.genres = some it.genres) ∧
    (∀ env id d tr, getMovieDetailsByImdbId env id = (.ok (some d), tr) →
      ∃ m ∈ env.movies, parseGenresGuarded m.genres = some d.genres ∧
        parseGenresGuarded m.productionCompanies = some d.productionCompanies) ∧
    ((∀ m : MovieRow, ∀ s, m.genres = some s → s ≠ "" → jsonParse s = none →
      (getPaginatedMovies (envOf m) 1).1 = .error .jsonSyntax ∧
      (getMovieDetailsByImdbId (envOf m) m.imdbId).1 = .error .jsonSyntax ∧
      (∀ dte, m.releaseDate = some dte →
        (getMoviesByYear (envOf m) (dte.take 4) 1 .asc).1 = .error .jsonSyntax) ∧
      (getMoviesByGenre (envOf m) ("") 1).1 = .error .jsonSyntax) ∧
    (∀ m : MovieRow, m.genres = some ("") →
      jsonParse ("") = none ∧ parseGenresGuarded (some ("")) = some (Json.arr []) ∧
      jsParseAny (some ("")) = none ∧
      (getPaginatedMovies (envOf m) 1).1 = .error .jsonSyntax ∧
      (∀ pj, parseGenresGuarded m.productionCompanies = some pj →
        ∃ d, (getMovieDetailsByImdbId (envOf m) m.imdbId).1 = .ok (some d) ∧
          d.genres = Json.arr []) ∧
      (∀ dte, m.releaseDate = some dte →
        ∃ it, (getMoviesByYear (envOf m) (dte.take 4) 1 .asc).1 = .ok [it] ∧
          it.genres = Json.arr []) ∧
      (∃ it, (getMoviesByGenre (envOf m) ("") 1).1 = .ok [it] ∧
        it.genres = Json.arr []))) := by
  refine ⟨⟨rfl, rfl⟩, ?_, ?_, ?_, ?_, ?_, ?_, ?_, ?_⟩
  · intro s j hs hj
    exact ⟨by simp [parseGenresGuarded, hs, hj], by simp [jsParseAny, hj]⟩
  · intro s hs hj
    exact ⟨by simp [parseGenresGuarded, hs, hj], by simp [jsParseAny, hj]⟩
  · intro env p out tr h it hit
    have h1 : (getPaginatedMovies env p).1 = .ok out := by rw [h]
    cases hm : env.moviesErr with
    | some e => simp [getPaginatedMovies, hm] at h1
    | none =>
      simp only [getPaginatedMovies, hm] at h1
      rcases mapOrErr_mem _ h1 it hit with ⟨m, hmem, hsh⟩
      exact ⟨m, mem_window hmem, (shapeRowUnguarded_ok hsh).1⟩
  · intro env y p o out tr h it hit
    have h1 : (getMoviesByYear env y p o).1 = .ok out := by rw [h]
    cases hm : env.moviesErr with
    | some e => simp [getMoviesByYear, hm] at h1
    | none =>
      cases o with
      | asc =>
        simp only [getMoviesByYear, hm] at h1
        rcases mapOrErr_mem _ h1 it hit with ⟨m, hmem, hsh⟩
        exact ⟨m, (List.mem_filter.mp
          ((List.perm_insertionSort dateLe _).mem_iff.mp (mem_window hmem))).1,
          (shapeRowGuarded_ok hsh).1⟩
      | desc =>
        simp only [getMoviesByYear, hm] at h1
        rcases mapOrErr_mem _ h1 it hit with ⟨m, hmem, hsh⟩
        exact ⟨m, (List.mem_filter.mp
          ((List.perm_insertionSort dateGe _).mem_iff.mp (mem_window hmem))).1,
          (shapeRowGuarded_ok hsh).1⟩
  · intro env g p out tr h it hit
    have h1 : (getMoviesByGenre env g p).1 = .ok out := by rw [h]
    cases hm : env.moviesErr with
    | some e => simp [getMoviesByGenre, hm] at h1
    | none =>
      simp only [getMoviesByGenre, hm] at h1
      rcases mapOrErr_mem _ h1 it hit with ⟨m, hmem, hsh⟩
      exact ⟨m, (List.mem_filter.mp (mem_window hmem)).1, (shapeRowGuarded_ok hsh).1⟩
  · intro env id d tr h
    have h1 : (getMovieDetailsByImdbId env id).1 = .ok (some d) := by rw [h]
    cases hm : env.moviesErr with
    | some e => simp [getMovieDetailsByImdbId, hm] at h1
    | none =>
      cases hf : env.movies.find? (fun m => m.imdbId == id) with
      | none => simp [getMovieDetailsByImdbId, hm, hf] at h1
      | some row =>
        cases hr : env.ratingsErr with
        | some e => simp [getMovieDetailsByImdbId, detailAfterFind, hm, hf, hr] at h1
        | none =>
          refine ⟨row, List.mem_of_find?_eq_some hf, ?_⟩
          simp only [getMovieDetailsByImdbId, detailAfterFind, hm, hf, hr] at h1
          cases hg : parseGenresGuarded row.genres with
          | none => rw [hg] at h1; simp at h1
          | some gj =>
            cases hpc : parseGenresGuarded row.productionCompanies with
            | none => rw [hg, hpc] at h1; simp at h1
            | some pj =>
              rw [hg, hpc] at h1
              simp only [Except.ok.injEq, Option.some.injEq] at h1
              subst h1
              exact ⟨rfl, rfl⟩
  · intro m s hgs hs hj
    have hbadU : shapeRowUnguarded m = .error .jsonSyntax := by
      simp [shapeRowUnguarded, jsParseAny, hgs, hj]
    have hbadG : parseGenresGuarded m.genres = none := by
      simp [parseGenresGuarded, hgs, hs, hj]
    refine ⟨?_, ?_, ?_, ?_⟩
    · simp [getPaginatedMovies, envOf, mapOrErr, hbadU]
    · have hfind : (envOf m).movies.find? (fun r => r.imdbId == m.imdbId) = some m := by
        simp [envOf, List.find?]
      simp [getMovieDetailsByImdbId, detailAfterFind, envOf, hfind, hbadG]
    · intro dte hdte
      have hsel : yearSel (dte.take 4) m = true := by
        simp [yearSel, hdte]
      simp [getMoviesByYear, envOf, hsel, List.insertionSort, List.orderedInsert,
        mapOrErr, shapeRowGuarded, hbadG]
    · have hsel : genreSel ("") m = true := genreSel_empty hgs
      simp [getMoviesByGenre, envOf, hsel, mapOrErr, shapeRowGuarded, hbadG]
  · intro m hgs
    have hpg : parseGenresGuarded m.genres = some (Json.arr []) := by
      rw [hgs]
      rfl
    have hbadU : shapeRowUnguarded m = .error .jsonSyntax := by
      simp [shapeRowUnguarded, jsParseAny, hgs, show jsonParse ("") = none from rfl]
    have hshape : shapeRowGuarded m = .ok
        { imdbId := m.imdbId, title := m.title, genres := Json.arr [],
          releaseDate := m.releaseDate, budget := fmtBudget m.budget } := by
      simp [shapeRowGuarded, hpg]
    refine ⟨rfl, rfl, rfl, ?_, ?_, ?_, ?_⟩
    · simp [getPaginatedMovies, envOf, mapOrErr, hbadU]
    · intro pj hpj
      have hfind : (envOf m).movies.find? (fun r => r.imdbId == m.imdbId) = some m := by
        simp [envOf, List.find?]
      refine ⟨{ imdbId := m.imdbId, title := m.title, description := m.overview,
                releaseDate := m.releaseDate, budget := fmtBudget m.budget,
                runtime := m.runtime, averageRating := none, genres := Json.arr [],
                originalLanguage := m.language, productionCompanies := pj }, ?_, rfl⟩
      simp [getMovieDetailsByImdbId, detailAfterFind, envOf, hfind, hpg, hpj, samplesFor]
    · intro dte hdte
      have hsel : yearSel (dte.take 4) m = true := by
        simp [yearSel, hdte]
      refine ⟨{ imdbId := m.imdbId, title := m.title, genres := Json.arr [],
                releaseDate := m.releaseDate, budget := fmtBudget m.budget }, ?_, rfl⟩
      simp [getMoviesByYear, envOf, hsel, List.insertionSort, List.orderedInsert,
        mapOrErr, hshape]
    · have hsel : genreSel ("") m = true := genreSel_empty hgs
      refine ⟨{ imdbId := m.imdbId, title := m.title, genres := Json.arr [],
                releaseDate := m.releaseDate, budget := fmtBudget m.budget }, ?_, rfl⟩
      simp [getMoviesByGenre, envOf, hsel, mapOrErr, hshape]

/-- Witness for C2 (amended): the null clause, the malformed-text clause
at a concrete row with genre text `"oops"`, and the empty-string clause
at a concrete row with genre text `""`. -/
theorem C2_genre_normalization_amended_witness :
    (parseGenresGuarded none = some (Json.arr []) ∧ jsParseAny none = some Json.null) ∧
    (getPaginatedMovies (envOf rowBad) 1).1 = .error .jsonSyntax ∧
    (getMovieDetailsByImdbId (envOf rowBad) ("tt0666")).1 = .error .jsonSyntax ∧
    (getMoviesByYear (envOf rowBad) ("2001") 1 .asc).1 = .error .jsonSyntax ∧
    (getMoviesByGenre (envOf rowBad) ("") 1).1 = .error .jsonSyntax ∧
    (getPaginatedMovies (envOf rowEmpty) 1).1 = .error .jsonSyntax ∧
    (∃ it, (getMoviesByYear (envOf rowEmpty) ("2002") 1 .asc).1 = .ok [it] ∧
      it.genres = Json.arr []) ∧
    (∃ it, (getMoviesByGenre (envOf rowEmpty) ("") 1).1 = .ok [it] ∧
      it.genres = Json.arr []) := by
  have h := C2_genre_normalization_amended.2.2.2.2.2.2.2.1 rowBad ("oops") rfl
    (by decide) (by rfl)
  have h2 := C2_genre_normalization_amended.2.2.2.2.2.2.2.2 rowEmpty rfl
  exact ⟨C2_genre_normalization_amended.1, h.1, h.2.1, h.2.2.1 ("2001-01-01") rfl, h.2.2.2,
    h2.2.2.2.1, h2.2.2.2.2.2.1 ("2002-03-04") rfl, h2.2.2.2.2.2.2⟩

/-! ### C8: the year listing -/

/-- The release-date key of an output item. -/
def itemDateKey (it : ListItem) : String :=
  match it.releaseDate with
  | some d => d
  | none => ""

/-- A selected row has a release date whose leading four characters are
the requested year. -/
theorem yearSel_spec {y : String} {m : MovieRow} (h : yearSel y m = true) :
    ∃ d, m.releaseDate = some d ∧ d.take 4 = y := by
  unfold yearSel at h
  cases hd : m.releaseDate with
  | none => rw [hd] at h; cases h
  | some d =>
    rw [hd] at h
    exact ⟨d, rfl, by simpa [beq_iff_eq] using h⟩

/-- The guarded shaper carries the row's release-date key to the item. -/
theorem shapeRowGuarded_dateKey {m : MovieRow} {it : ListItem}
    (h : shapeRowGuarded m = .ok it) : itemDateKey it = dateKey m := by
  unfold itemDateKey dateKey
  rw [(shapeRowGuarded_ok h).2.2.2.1]

/-- C8: for `p ≥ 1`, `listByYear(y, p, s)` issues one catalog query with
offset `(p-1)*50` and limit 50; on success every returned item's release
date starts with `y`, the items are ordered by release date in direction
`s`, and the page holds exactly the `min 50 (matches - offset)` records;
a year matching no record yields the empty page with no error. -/
theorem C8_listByYear_filter_order (env : Env) (y : String) (p : Nat) (o : SortOrder)
    (hp : 1 ≤ p) :
    (getMoviesByYear env y p o).2 = [Query.catalogByYear y o 50 ((p - 1) * 50)] ∧
    (∀ out, (getMoviesByYear env y p o).1 = .ok out →
      (∀ it ∈ out, ∃ d, it.releaseDate = some d ∧ d.take 4 = y) ∧
      (o = .asc → out.Pairwise (fun a b => strLe (itemDateKey a) (itemDateKey b) = true)) ∧
      (o = .desc → out.Pairwise (fun a b => strLe (itemDateKey b) (itemDateKey a) = true)) ∧
      out.length = min 50 ((env.movies.filter (yearSel y)).length - (p - 1) * 50)) ∧
    (env.moviesErr = none → env.movies.filter (yearSel y) = [] →
      (getMoviesByYear env y p o).1 = .ok []) := by
  refine ⟨?_, ?_, ?_⟩
  · cases hm : env.moviesErr <;> simp [getMoviesByYear, hm]
  · intro out hout
    cases hm : env.moviesErr with
    | some e => simp [getMoviesByYear, hm] at hout
    | none =>
      cases o with
      | asc =>
        simp only [getMoviesByYear, hm] at hout
        refine ⟨?_, ?_, ?_, ?_⟩
        · intro it hit
          rcases mapOrErr_mem _ hout it hit with ⟨m, hmem, hsh⟩
          have hsel : yearSel y m = true := (List.mem_filter.mp
            ((List.perm_insertionSort dateLe _).mem_iff.mp (mem_window hmem))).2
          rcases yearSel_spec hsel with ⟨d, hd, hdy⟩
          exact ⟨d, by rw [(shapeRowGuarded_ok hsh).2.2.2.1, hd], hdy⟩
        · intro _
          refine mapOrErr_pairwise _ ?_ hout
            (List.Pairwise.sublist ((List.take_sublist _ _).trans (List.drop_sublist _ _))
              (List.sorted_insertionSort dateLe _))
          intro a a' b b' h1 h2 hr
          rw [shapeRowGuarded_dateKey h1, shapeRowGuarded_dateKey h2]
          exact hr
        · intro hcon; cases hcon
        · rw [mapOrErr_length _ hout, List.length_take, List.length_drop,
            (List.perm_insertionSort dateLe _).length_eq]
      | desc =>
        simp only [getMoviesByYear, hm] at hout
        refine ⟨?_, ?_, ?_, ?_⟩
        · intro it hit
          rcases mapOrErr_mem _ hout it hit with ⟨m, hmem, hsh⟩
          have hsel : yearSel y m = true := (List.mem_filter.mp
            ((List.perm_insertionSort dateGe _).mem_iff.mp (mem_window hmem))).2
          rcases yearSel_spec hsel with ⟨d, hd, hdy⟩
          exact ⟨d, by rw [(shapeRowGuarded_ok hsh).2.2.2.1, hd], hdy⟩
        · intro hcon; cases hcon
        · intro _
          refine mapOrErr_pairwise _ ?_ hout
            (List.Pairwise.sublist ((List.take_sublist _ _).trans (List.drop_sublist _ _))
              (List.sorted_insertionSort dateGe _))
          intro a a' b b' h1 h2 hr
          rw [shapeRowGuarded_dateKey h1, shapeRowGuarded_dateKey h2]
          exact hr
        · rw [mapOrErr_length _ hout, List.length_take, List.length_drop,
            (List.perm_insertionSort dateGe _).length_eq]
  · intro hm hempty
    cases o <;> simp [getMoviesByYear, hm, hempty, List.insertionSort, mapOrErr]

/-- Witness for C8: the issued query at page 1 descending, and the empty
result for a year matching no record. -/
theorem C8_listByYear_filter_order_witness :
    (getMoviesByYear envA ("2005") 1 .desc).2 = [Query.catalogByYear ("2005") .desc 50 0] ∧
    (getMoviesByYear envA ("1999") 1 .asc).1 = .ok [] :=
  ⟨(C8_listByYear_filter_order envA ("2005") 1 .desc (by decide)).1,
   (C8_listByYear_filter_order envA ("1999") 1 .asc (by decide)).2.2 rfl (by decide)⟩

/-! ### C9: the internal id never reaches a DTO -/

/-- Rename the internal id of a catalog row. -/
def remapRow (f : Int → Int) (m : MovieRow) : MovieRow := { m with movieId := f m.movieId }

/-- Rename the internal ids consistently across both stores. -/
def remapEnv (f : Int → Int) (env : Env) : Env :=
  { movies := env.movies.map (remapRow f),
    ratings := env.ratings.map (fun r => { r with movieId := f r.movieId }),
    moviesErr := env.moviesErr, ratingsErr := env.ratingsErr }

theorem orderedInsert_map {α : Type} (r : α → α → Prop) [DecidableRel r] (g : α → α)
    (hg : ∀ a b, r (g a) (g b) ↔ r a b) (x : α) :
    ∀ l : List α, List.orderedInsert r (g x) (l.map g) = (List.orderedInsert r x l).map g := by
  intro l
  induction l with
  | nil => rfl
  | cons b l ih =>
    simp only [List.map_cons, List.orderedInsert]
    by_cases h : r x b
    · rw [if_pos ((hg x b).mpr h), if_pos h]
      simp
    · rw [if_neg (fun hc => h ((hg x b).mp hc)), if_neg h]
      simp [ih]

theorem insertionSort_map {α : Type} (r : α → α → Prop) [DecidableRel r] (g : α → α)
    (hg : ∀ a b, r (g a) (g b) ↔ r a b) :
    ∀ l : List α, List.insertionSort r (l.map g) = (List.insertionSort r l).map g := by
  intro l
  induction l with
  | nil => rfl
  | cons b l ih => simp only [List.map_cons, List.insertionSort, ih, orderedInsert_map r g hg]

theorem remapEnv_movies (f : Int → Int) (env : Env) :
    (remapEnv f env).movies = env.movies.map (remapRow f) := rfl

theorem remapEnv_ratings (f : Int → Int) (env : Env) :
    (remapEnv f env).ratings = env.ratings.map (fun r => { r with movieId := f r.movieId }) := rfl

theorem remapEnv_moviesErr (f : Int → Int) (env : Env) :
    (remapEnv f env).moviesErr = env.moviesErr := rfl

theorem remapEnv_ratingsErr (f : Int → Int) (env : Env) :
    (remapEnv f env).ratingsErr = env.ratingsErr := rfl

/-- Boolean equality is invariant under an injective map. -/
theorem beq_map_inj {f : Int → Int} (hf : Function.Injective f) (a b : Int) :
    (f a == f b) = (a == b) := by
  by_cases h : a = b
  · simp [h]
  · have h2 : ¬ f a = f b := fun hc => h (hf hc)
    simp [beq_iff_eq, h, h2]

/-- Renaming the internal ids consistently leaves the rating lookup and
detail shaping unchanged. -/
theorem detailAfterFind_remap (f : Int → Int) (hf : Function.Injective f) (env : Env)
    (id : String) (row : MovieRow) :
    (detailAfterFind (remapEnv f env) id (remapRow f row)).1 = (detailAfterFind env id row).1 := by
  unfold detailAfterFind
  rw [remapEnv_ratingsErr]
  cases hr : env.ratingsErr with
  | some e => rfl
  | none =>
    have hsamples : samplesFor (remapEnv f env) (remapRow f row).movieId =
        samplesFor env row.movieId := by
      show ((remapEnv f env).ratings.filter
          (fun r => r.movieId == (remapRow f row).movieId)).map (fun r => r.rating) =
        (env.ratings.filter (fun r => r.movieId == row.movieId)).map (fun r => r.rating)
      rw [remapEnv_ratings, List.filter_map, List.map_map]
      have h3 : (fun (r : RatingSample) => r.movieId == (remapRow f row).movieId) ∘
          (fun (r : RatingSample) => { r with movieId := f r.movieId }) =
          fun (r : RatingSample) => r.movieId == row.movieId := by
        funext r
        exact beq_map_inj hf r.movieId row.movieId
      rw [h3]
      rfl
    rw [hsamples,
      show (remapRow f row).genres = row.genres from rfl,
      show (remapRow f row).productionCompanies = row.productionCompanies from rfl]
    cases hg : parseGenresGuarded row.genres with
    | none => rfl
    | some gj =>
      cases hpc : parseGenresGuarded row.productionCompanies with
      | none => rfl
      | some pj => rfl

/-- C9: renaming the internal movie ids consistently across the two
stores (injectively) leaves the result of every one of the four
operations unchanged: the internal id influences no DTO except through
the catalog–rating join, and never appears in one. -/
theorem C9_internalId_confined (f : Int → Int) (hf : Function.Injective f) (env : Env)
    (p : Nat) (id y g : String) (o : SortOrder) :
    (getPaginatedMovies (remapEnv f env) p).1 = (getPaginatedMovies env p).1 ∧
    (getMovieDetailsByImdbId (remapEnv f env) id).1 = (getMovieDetailsByImdbId env id).1 ∧
    (getMoviesByYear (remapEnv f env) y p o).1 = (getMoviesByYear env y p o).1 ∧
    (getMoviesByGenre (remapEnv f env) g p).1 = (getMoviesByGenre env g p).1 := by
  refine ⟨?_, ?_, ?_, ?_⟩
  · cases hm : env.moviesErr with
    | some e => simp [getPaginatedMovies, remapEnv_moviesErr, hm]
    | none =>
      simp only [getPaginatedMovies, remapEnv_moviesErr, remapEnv_movies, hm]
      rw [← List.map_drop, ← List.map_take, mapOrErr_map]
      exact mapOrErr_congr (fun a _ => rfl)
  · cases hm : env.moviesErr with
    | some e => simp [getMovieDetailsByImdbId, remapEnv_moviesErr, hm]
    | none =>
      simp only [getMovieDetailsByImdbId, remapEnv_moviesErr, remapEnv_movies,
        remapEnv_ratingsErr, hm]
      rw [List.find?_map]
      cases hfind : env.movies.find? (fun m => m.imdbId == id) with
      | none =>
        have h2 : env.movies.find? ((fun m => m.imdbId == id) ∘ remapRow f) = none := hfind
        rw [h2]
        rfl
      | some row =>
        have h2 : env.movies.find? ((fun m => m.imdbId == id) ∘ remapRow f) = some row := hfind
        rw [h2]
        show (detailAfterFind (remapEnv f env) id (remapRow f row)).1 =
          (detailAfterFind env id row).1
        exact detailAfterFind_remap f hf env id row
  · cases hm : env.moviesErr with
    | some e => simp [getMoviesByYear, remapEnv_moviesErr, hm]
    | none =>
      simp only [getMoviesByYear, remapEnv_moviesErr, remapEnv_movies, hm]
      have hfil : (env.movies.map (remapRow f)).filter (yearSel y) =
          (env.movies.filter (yearSel y)).map (remapRow f) := by
        rw [List.filter_map]
        rfl
      cases o with
      | asc =>
        rw [hfil, insertionSort_map dateLe (remapRow f) (fun a b => Iff.rfl),
          ← List.map_drop, ← List.map_take, mapOrErr_map]
        exact mapOrErr_congr (fun a _ => rfl)
      | desc =>
        rw [hfil, insertionSort_map dateGe (remapRow f) (fun a b => Iff.rfl),
          ← List.map_drop, ← List.map_take, mapOrErr_map]
        exact mapOrErr_congr (fun a _ => rfl)
  · cases hm : env.moviesErr with
    | some e => simp [getMoviesByGenre, remapEnv_moviesErr, hm]
    | none =>
      simp only [getMoviesByGenre, remapEnv_moviesErr, remapEnv_movies, hm]
      have hfil : (env.movies.map (remapRow f)).filter (genreSel g) =
          (env.movies.filter (genreSel g)).map (remapRow f) := by
        rw [List.filter_map]
        rfl
      rw [hfil, ← List.map_drop, ← List.map_take, mapOrErr_map]
      exact mapOrErr_congr (fun a _ => rfl)

/-- Witness for C9 at the shift-by-1000 renaming of the concrete store. -/
theorem C9_internalId_confined_witness :
    (getPaginatedMovies (remapEnv (fun n => n + 1000) envA) 1).1 =
      (getPaginatedMovies envA 1).1 ∧
    (getMovieDetailsByImdbId (remapEnv (fun n => n + 1000) envA) ("tt0001")).1 =
      (getMovieDetailsByImdbId envA ("tt0001")).1 :=
  ⟨(C9_internalId_confined (fun n => n + 1000)
      (fun a b h => by
        have h2 : a + 1000 = b + 1000 := h
        omega) envA 1 ("tt0001") ("2005") ("Action") .asc).1,
   (C9_internalId_confined (fun n => n + 1000)
      (fun a b h => by
        have h2 : a + 1000 = b + 1000 := h
        omega) envA 1 ("tt0001") ("2005") ("Action") .asc).2.1⟩

/-! ### C3: the genre filter -/

/-- Above the adequate bound, the `LIKE` matcher's value no longer
depends on the fuel. -/
theorem likeMatchF_mono : ∀ (f1 f2 : Nat) (p s : List Char),
    p.length + s.length < f1 → f1 ≤ f2 → likeMatchF f1 p s = likeMatchF f2 p s := by
  intro f1
  induction f1 with
  | zero =>
    intro f2 p s h _
    omega
  | succ a ih =>
    intro f2 p s hb hle
    cases f2 with
    | zero => omega
    | succ b =>
      cases p with
      | nil => rfl
      | cons c p2 =>
        simp only [likeMatchF]
        by_cases hc : c = '%'
        · rw [if_pos hc, if_pos hc]
          have e1 : likeMatchF a p2 s = likeMatchF b p2 s := by
            refine ih b p2 s ?_ (by omega)
            simp only [List.length_cons] at hb
            omega
          rw [e1]
          cases s with
          | nil => rfl
          | cons d s2 =>
            have e2 : likeMatchF a (c :: p2) s2 = likeMatchF b (c :: p2) s2 := by
              refine ih b (c :: p2) s2 ?_ (by omega)
              simp only [List.length_cons] at hb ⊢
              omega
            dsimp only
            rw [e2]
        · rw [if_neg hc, if_neg hc]
          cases s with
          | nil => rfl
          | cons d s2 =>
            have e1 : likeMatchF a p2 s2 = likeMatchF b p2 s2 := by
              refine ih b p2 s2 ?_ (by omega)
              simp only [List.length_cons] at hb
              omega
            dsimp only
            rw [e1]

/-- One unfolding step of `LIKE` at a leading `%`. -/
theorem likeMatch_pct_step (p s : List Char) :
    likeMatch ('%' :: p) s =
      (likeMatch p s ||
        match s with
        | [] => false
        | _ :: s2 => likeMatch ('%' :: p) s2) := by
  cases s with
  | nil =>
    dsimp only
    have base : likeMatch ('%' :: p) [] =
        (likeMatchF (('%' :: p).length + ([] : List Char).length) p [] || false) := rfl
    have e1 : likeMatchF (('%' :: p).length + ([] : List Char).length) p [] =
        likeMatch p [] := by
      unfold likeMatch
      refine (likeMatchF_mono _ _ _ _ ?_ ?_).symm
      · omega
      · simp only [List.length_cons, List.length_nil]
        omega
    rw [base, e1]
  | cons d s2 =>
    dsimp only
    have base : likeMatch ('%' :: p) (d :: s2) =
        (likeMatchF (('%' :: p).length + (d :: s2).length) p (d :: s2) ||
          likeMatchF (('%' :: p).length + (d :: s2).length) ('%' :: p) s2) := rfl
    have e1 : likeMatchF (('%' :: p).length + (d :: s2).length) p (d :: s2) =
        likeMatch p (d :: s2) := by
      unfold likeMatch
      refine (likeMatchF_mono _ _ _ _ ?_ ?_).symm
      · omega
      · simp only [List.length_cons]
        omega
    have e2 : likeMatchF (('%' :: p).length + (d :: s2).length) ('%' :: p) s2 =
        likeMatch ('%' :: p) s2 := by
      unfold likeMatch
      refine (likeMatchF_mono _ _ _ _ ?_ ?_).symm
      · omega
      · simp only [List.length_cons]
        omega
    rw [base, e1, e2]

/-- One unfolding step of `LIKE` at a leading ordinary character. -/
theorem likeMatch_char_step (c : Char) (p s : List Char) (hc : c ≠ '%') :
    likeMatch (c :: p) s =
      (match s with
       | [] => false
       | d :: s2 =>
         (if c = '_' then true else lowerChar c == lowerChar d) && likeMatch p s2) := by
  cases s with
  | nil =>
    dsimp only
    have base : likeMatch (c :: p) [] =
        (if c = '%' then
          (likeMatchF ((c :: p).length + ([] : List Char).length) p [] ||
            match ([] : List Char) with
            | [] => false
            | _ :: s2 => likeMatchF ((c :: p).length + ([] : List Char).length) (c :: p) s2)
        else false) := rfl
    rw [base, if_neg hc]
  | cons d s2 =>
    dsimp only
    have base : likeMatch (c :: p) (d :: s2) =
        (if c = '%' then
          (likeMatchF ((c :: p).length + (d :: s2).length) p (d :: s2) ||
            likeMatchF ((c :: p).length + (d :: s2).length) (c :: p) s2)
        else
          ((if c = '_' then true else lowerChar c == lowerChar d) &&
            likeMatchF ((c :: p).length + (d :: s2).length) p s2)) := rfl
    have e1 : likeMatchF ((c :: p).length + (d :: s2).length) p s2 = likeMatch p s2 := by
      unfold likeMatch
      refine (likeMatchF_mono _ _ _ _ ?_ ?_).symm
      · omega
      · simp only [List.length_cons]
        omega
    rw [base, if_neg hc, e1]

/-- Boolean prefix test on character lists. -/
def isPrefixB : List Char → List Char → Bool
  | [], _ => true
  | _ :: _, [] => false
  | a :: as, b :: bs => a == b && isPrefixB as bs

/-- Boolean substring (contiguous-sublist) test on character lists. -/
def isSubB (n : List Char) : List Char → Bool
  | [] => n.isEmpty
  | b :: bs => isPrefixB n (b :: bs) || isSubB n bs

theorem isPrefixB_iff : ∀ (n h : List Char), isPrefixB n h = true ↔ ∃ t, n ++ t = h := by
  intro n
  induction n with
  | nil =>
    intro h
    simp [isPrefixB]
  | cons a as ih =>
    intro h
    cases h with
    | nil => simp [isPrefixB]
    | cons b bs =>
      simp only [isPrefixB, Bool.and_eq_true, beq_iff_eq]
      constructor
      · rintro ⟨rfl, hpre⟩
        rcases (ih bs).mp hpre with ⟨t, rfl⟩
        exact ⟨t, rfl⟩
      · rintro ⟨t, ht⟩
        injection ht with h1 h2
        exact ⟨h1, (ih bs).mpr ⟨t, h2⟩⟩

theorem isSubB_iff_drop : ∀ (n h : List Char),
    isSubB n h = true ↔ ∃ j, isPrefixB n (h.drop j) = true := by
  intro n h
  induction h with
  | nil =>
    cases n with
    | nil => simp [isSubB, isPrefixB]
    | cons a as => simp [isSubB, isPrefixB]
  | cons b bs ih =>
    simp only [isSubB, Bool.or_eq_true, ih]
    constructor
    · rintro (hp | ⟨j, hj⟩)
      · exact ⟨0, hp⟩
      · exact ⟨j + 1, hj⟩
    · rintro ⟨j, hj⟩
      cases j with
      | zero => exact Or.inl hj
      | succ j2 => exact Or.inr ⟨j2, hj⟩

/-- After the leading `%`, a wildcard-free pattern followed by the
closing `%` matches exactly the subjects that start (case-folded) with
the pattern. -/
theorem likeMatch_terminal_pct : ∀ (g : List Char), (∀ c ∈ g, c ≠ '%' ∧ c ≠ '_') →
    ∀ s, likeMatch (g ++ ['%']) s = isPrefixB (g.map lowerChar) (s.map lowerChar) := by
  intro g
  induction g with
  | nil =>
    intro _ s
    have h1 : likeMatch ['%'] s = true := by
      unfold likeMatch
      refine likeMatchF_pct s _ ?_
      simp only [List.length_cons, List.length_nil]
      omega
    rw [show (([] : List Char) ++ ['%']) = ['%'] from rfl, h1]
    rfl
  | cons c g2 ih =>
    intro hw s
    have hc : c ≠ '%' := (hw c (List.mem_cons_self c g2)).1
    have hcu : c ≠ '_' := (hw c (List.mem_cons_self c g2)).2
    rw [show ((c :: g2) ++ ['%']) = c :: (g2 ++ ['%']) from rfl,
      likeMatch_char_step c (g2 ++ ['%']) s hc]
    cases s with
    | nil => rfl
    | cons d s2 =>
      dsimp only
      rw [if_neg hcu, ih (fun c2 hc2 => hw c2 (List.mem_cons_of_mem c hc2)) s2]
      rfl

/-- A leading `%` matches iff some suffix of the subject matches the
rest of the pattern. -/
theorem likeMatch_pct_iff_drop (p : List Char) : ∀ s,
    likeMatch ('%' :: p) s = true ↔ ∃ n, likeMatch p (s.drop n) = true := by
  intro s
  induction s with
  | nil =>
    rw [likeMatch_pct_step]
    simp only [Bool.or_eq_true]
    constructor
    · rintro (h | h)
      · exact ⟨0, h⟩
      · simp at h
    · rintro ⟨n, hn⟩
      rw [List.drop_nil] at hn
      exact Or.inl hn
  | cons d s2 ih =>
    rw [likeMatch_pct_step]
    simp only [Bool.or_eq_true]
    constructor
    · rintro (h | h)
      · exact ⟨0, h⟩
      · rcases ih.mp h with ⟨n, hn⟩
        exact ⟨n + 1, hn⟩
    · rintro ⟨n, hn⟩
      cases n with
      | zero => exact Or.inl hn
      | succ n2 =>
        right
        exact ih.mpr ⟨n2, hn⟩

/-- The `LIKE '%g%'` test, for a wildcard-free `g`, is exactly the ASCII
case-insensitive substring test. -/
theorem likeMatch_eq_ciSub (g : List Char) (hw : ∀ c ∈ g, c ≠ '%' ∧ c ≠ '_')
    (s : List Char) :
    likeMatch ('%' :: (g ++ ['%'])) s = isSubB (g.map lowerChar) (s.map lowerChar) := by
  have hiff : likeMatch ('%' :: (g ++ ['%'])) s = true ↔
      isSubB (g.map lowerChar) (s.map lowerChar) = true := by
    rw [likeMatch_pct_iff_drop, isSubB_iff_drop]
    constructor
    · rintro ⟨n, hn⟩
      rw [likeMatch_terminal_pct g hw] at hn
      rw [List.map_drop] at hn
      exact ⟨n, hn⟩
    · rintro ⟨j, hj⟩
      refine ⟨j, ?_⟩
      rw [likeMatch_terminal_pct g hw, List.map_drop]
      exact hj
  cases hb : isSubB (g.map lowerChar) (s.map lowerChar) with
  | true => exact hiff.mpr hb
  | false =>
    refine Bool.eq_false_iff.mpr (fun hc => ?_)
    rw [hiff.mp hc] at hb
    cases hb

/-- Specification-side filter for the amended C3: ASCII case-insensitive
substring containment of the genre argument in the stored genre text. -/
def genreSelCI (genre : String) (m : MovieRow) : Bool :=
  match m.genres with
  | some s => isSubB (genre.data.map lowerChar) (s.data.map lowerChar)
  | none => false

/-- Spec-side reformulation of `getMoviesByGenre` for the amended C3:
identical to the implementation except that the row filter is the
case-insensitive substring test. -/
def getMoviesByGenreSpec (env : Env) (genre : String) (page : Nat) :
    Except JsErr (List ListItem) × List Query :=
  let limit := 50
  let offset := (page - 1) * limit
  let q := Query.catalogByGenre ("%" ++ genre ++ "%") limit offset
  match env.moviesErr with
  | some e => (.error (.dbErr e), [q])
  | none =>
    (mapOrErr shapeRowGuarded
      (((env.movies.filter (genreSelCI genre)).drop offset).take limit), [q])

theorem genreSel_eq_CI {genre : String} (hw : ∀ c ∈ genre.data, c ≠ '%' ∧ c ≠ '_')
    (m : MovieRow) : genreSel genre m = genreSelCI genre m := by
  unfold genreSel genreSelCI
  cases m.genres with
  | none => rfl
  | some s => exact likeMatch_eq_ciSub genre.data hw s.data

/-- C3 (counterexample to the claim as stated): the stored genre text of
`tt0001` does not contain `"action"` as a case-sensitive substring, yet
`listByGenre("action", 1)` returns that record (and `tt0003`), because
SQLite's `LIKE` folds ASCII case. -/
theorem C3_caseSensitive_counterexample :
    isSubB (String.data ("action")) actionText.data = false ∧
    rowA.genres = some actionText ∧
    ((getMoviesByGenre envA ("action") 1).1.toOption.map
      (fun l => l.map (fun it => it.imdbId))) = some ["tt0001", "tt0003"] :=
  ⟨by decide, rfl, by decide⟩

/-- C3 (amended): for every genre string without the LIKE wildcards `%`
and `_`, and every page, `listByGenre` returns exactly the records (up
to the page limit) whose serialized genre text contains the genre as an
ASCII case-insensitive substring, matched anywhere in the JSON-serialized
genre blob. -/
theorem C3_genreFilter_amended (env : Env) (genre : String) (p : Nat)
    (hw : ∀ c ∈ genre.data, c ≠ '%' ∧ c ≠ '_') :
    getMoviesByGenre env genre p = getMoviesByGenreSpec env genre p := by
  unfold getMoviesByGenre getMoviesByGenreSpec
  rw [List.filter_congr (fun m _ => genreSel_eq_CI hw m)]

/-- Witness for C3 (amended) at a concrete genre and store. -/
theorem C3_genreFilter_amended_witness :
    getMoviesByGenre envA ("Action") 1 = getMoviesByGenreSpec envA ("Action") 1 :=
  C3_genreFilter_amended envA ("Action") 1 (by decide)

end MovieApi
